import Mathlib

/-!
Verification development for the humanitarian-aid allocation backend
(`src/backend/app.py`, class `HumanitarianSim` and module-level data).

The Python code is shallowly embedded: Python floats are modelled as
rationals (ℚ), exceptions as `Option` (a raised exception is `none`),
untrusted JSON field values as the inductive `JVal`, and the external
reasoning service as oracle parameters supplying the JSON responses.
Python `round(x, n)` rounds to the nearest multiple of `10 ^ (-n)`; the
embedding rounds halves up, where CPython rounds a representable exact
half to even (such exact halves occur in none of the concrete inputs
used below).
-/

/-- A JSON scalar value as delivered in an untrusted upstream response:
a number (Python `int`/`float`, as ℚ), a string, a boolean, or `null`.
Nested arrays/objects in scalar positions are outside the model. -/
inductive JVal where
  | num (q : ℚ)
  | str (s : String)
  | bool (b : Bool)
  | null
deriving DecidableEq

/-- Python truthiness test (`not x`) for a `JVal`: `0`, `""`, `False`
and `None` are falsy. -/
def jfalsy : JVal → Bool
  | .num q => q = 0
  | .str s => s = ""
  | .bool b => !b
  | .null => true

/-- Characters forming a decimal digit run, folded to the value. -/
def digitsToNat (l : List Char) : ℕ :=
  l.foldl (fun a c => a * 10 + (c.toNat - 48)) 0

/-- Strip leading and trailing whitespace from a character list
(Python `str.strip()`). -/
def trimChars (l : List Char) : List Char :=
  ((l.dropWhile (·.isWhitespace)).reverse.dropWhile (·.isWhitespace)).reverse

/-- Parse an unsigned decimal literal: digits with an optional single
decimal point, at least one digit in total (`"45"`, `"45."`, `".5"`). -/
def parseUnsignedDec : List Char → Option ℚ
  | l =>
    let intPart := l.takeWhile (·.isDigit)
    let rest := l.dropWhile (·.isDigit)
    match rest with
    | [] => if intPart.isEmpty then none else some (digitsToNat intPart : ℚ)
    | '.' :: frac =>
      if frac.all (·.isDigit) then
        if intPart.isEmpty && frac.isEmpty then none
        else some ((digitsToNat intPart : ℚ) + (digitsToNat frac : ℚ) / (10 ^ frac.length))
      else none
    | _ => none

/-- Model of Python `float(s)` on a string: strip whitespace, optional
sign, plain decimal literal. Exponent forms, `inf`/`nan` and digit
underscores are outside the model; every string the claims exercise is
either a plain decimal or rejected by `float` in both semantics. -/
def pyParseFloat (s : String) : Option ℚ :=
  match trimChars s.data with
  | '+' :: rest => parseUnsignedDec rest
  | '-' :: rest => (parseUnsignedDec rest).map (fun q => -q)
  | l => parseUnsignedDec l

/-- Model of Python `int(s)` on a string: strip whitespace, optional
sign, a nonempty digit run (no decimal point allowed). -/
def pyParseInt (s : String) : Option ℤ :=
  let core : List Char → Option ℤ := fun l =>
    if l.isEmpty then none
    else if l.all (·.isDigit) then some (digitsToNat l : ℤ) else none
  match trimChars s.data with
  | '+' :: rest => core rest
  | '-' :: rest => (core rest).map (fun z => -z)
  | l => core l

/-- Truncation of a rational toward zero, the rounding of Python
`int(float)`. -/
def ratTrunc (q : ℚ) : ℤ :=
  if 0 ≤ q then ⌊q⌋ else -⌊-q⌋

/-- Model of Python `float(x)` on a JSON scalar: numbers pass through,
booleans count as 0/1 (`bool` is an `int` subclass), strings are parsed
as decimal literals, `None` raises `TypeError` (= `none`). -/
def pyFloat : JVal → Option ℚ
  | .num q => some q
  | .bool b => some (if b then 1 else 0)
  | .str s => pyParseFloat s
  | .null => none

/-- Model of Python `int(x)` on a JSON scalar: numbers truncate toward
zero, booleans count as 0/1, strings must be integer literals, `None`
raises (= `none`). -/
def pyInt : JVal → Option ℤ
  | .num q => some (ratTrunc q)
  | .bool b => some (if b then 1 else 0)
  | .str s => pyParseInt s
  | .null => none

/-- The coercion `float(d.get(key, 0) or 0)` used by
`allocate_and_predict` for `allocation_percentage` and
`allocated_amount` (app.py lines 342 and 359): an absent or falsy value
yields 0, any other value goes through plain `float`, whose failure
propagates as an exception. -/
def floatOrZero (v : Option JVal) : Option ℚ :=
  match v with
  | none => some 0
  | some v => if jfalsy v then some 0 else pyFloat v

/-- The coercion `int(d.get(key, 0) or 0)` used for
`projected_impact_count` (app.py line 369): absent or falsy yields 0,
any other value goes through plain `int`, whose failure propagates. -/
def intOrZero (v : Option JVal) : Option ℤ :=
  match v with
  | none => some 0
  | some v => if jfalsy v then some 0 else pyInt v

/-- Embedding of `HumanitarianSim._parse_percent` (app.py lines
215-225): numbers (and booleans, as `int` instances) convert directly;
other falsy values yield 0; a string has every `%` removed and is
stripped, then parsed as a float, an unparsable remainder yielding 0.
This function never raises. -/
def parse_percent (v : JVal) : ℚ :=
  match v with
  | .num q => q
  | .bool b => if b then 1 else 0
  | .null => 0
  | .str s =>
    if s = "" then 0
    else (pyParseFloat ⟨trimChars (s.data.filter (· ≠ '%'))⟩).getD 0

/-- Python `round(q, 2)`: nearest multiple of 1/100 (halves up here,
see the header note). -/
def round2 (q : ℚ) : ℚ := (round (q * 100) : ℤ) / 100

/-- Python `round(q, 1)`: nearest multiple of 1/10. -/
def round1 (q : ℚ) : ℚ := (round (q * 10) : ℤ) / 10

/-- One entry of the untrusted `proposed_solutions` array of the stage-A
reasoning response. Every field may be missing (`none`); scalar fields
may carry any `JVal`. -/
structure RawSolution where
  solution_name : Option String := none
  analogous_country : Option String := none
  allocation_percentage : Option JVal := none
  allocated_amount : Option JVal := none
  success_likelihood : Option JVal := none
  projected_impact_count : Option JVal := none
  rationale : Option String := none
deriving DecidableEq

/-- A normalized output solution of `allocate_and_predict`. The source
emits `success_likelihood` as the string rounding of the parsed value
followed by a percent sign; the field here stores that rounded value. -/
structure NormSolution where
  solution_name : String
  analogous_country : String
  allocation_percentage : ℚ
  allocated_amount : ℚ
  success_likelihood : ℚ
  projected_impact_count : ℤ
  rationale : String
deriving DecidableEq

/-- Return value of `allocate_and_predict`. -/
structure AllocResult where
  proposed_solutions : List NormSolution
  package_success_score : ℚ
deriving DecidableEq

/-- The shape of a parsed reasoning-service response used by the report
pipeline (`_groq_json` output): top-level fields are optional and
untrusted. -/
structure LLMResult where
  summary : Option String := none
  Reasoning : Option String := none
  reasoning : Option String := none
  proposed_solutions : Option (List RawSolution) := none
  overall_impact_score : Option JVal := none

/-- Exception-propagating traversal: a Python list comprehension or
loop whose body may raise maps to `none` as soon as one element fails. -/
def mapOpt (f : α → Option β) : List α → Option (List β)
  | [] => some []
  | a :: l =>
    match f a, mapOpt f l with
    | some b, some bs => some (b :: bs)
    | _, _ => none

/-- The metrics record returned by `get_underfunding_metrics`. -/
structure Metrics where
  Country : String
  Year : ℤ
  Category : String
  Funding_Gap_USD : ℚ
  Funding_Required : ℚ
  Funding_Received : ℚ
  Underfunding_Percentage : ℚ
  People_in_Need : ℤ
  Stability_Index : ℚ
deriving DecidableEq

/-- The list `[float(s.get("allocation_percentage", 0) or 0) for s in
solutions]` (app.py line 342). -/
def rawAllocs (sols : List RawSolution) : Option (List ℚ) :=
  mapOpt (fun s => floatOrZero s.allocation_percentage) sols

/-- Lines 343-347 of app.py: if the parsed allocations sum to at most
0, replace them by equal shares of 100 (and the sum by 100); then
divide each allocation by the sum to obtain the normalized weights. -/
def normalizedWeights (sols : List RawSolution) : Option (List ℚ) :=
  (rawAllocs sols).map fun avs =>
    let pair : List ℚ × ℚ :=
      if avs.sum ≤ 0 then (List.replicate sols.length ((100 : ℚ) / sols.length), (100 : ℚ))
      else (avs, avs.sum)
    pair.1.map (· / pair.2)

/-- The per-solution body of the output loop (app.py lines 354-371):
parse the success likelihood with the percent rule, keep a supplied
positive `allocated_amount` or compute `gap * weight`, and emit the
normalized record. Fails when the amount or impact coercion raises. -/
def emitSolution (gap : ℚ) (w : ℚ) (sol : RawSolution) : Option NormSolution :=
  let success := parse_percent (sol.success_likelihood.getD (.num 0))
  match floatOrZero sol.allocated_amount, intOrZero sol.projected_impact_count with
  | some amount0, some impact =>
    let amount := if amount0 ≤ 0 then gap * w else amount0
    some { solution_name := sol.solution_name.getD "Unknown",
           analogous_country := sol.analogous_country.getD "Unknown",
           allocation_percentage := round2 (w * 100),
           allocated_amount := round2 amount,
           success_likelihood := round1 success,
           projected_impact_count := impact,
           rationale := sol.rationale.getD "" }
  | _, _ => none

/-- The accumulator `weighted_success += weight * success` of the same
loop, split out of the emission for proof convenience (both consume the
same pure per-element data). -/
def weightedSuccessOf (ws : List ℚ) (sols : List RawSolution) : ℚ :=
  ((ws.zip sols).map
    (fun p => p.1 * parse_percent (p.2.success_likelihood.getD (.num 0)))).sum

/-- Embedding of `HumanitarianSim.allocate_and_predict` (app.py lines
336-377). The single Python loop is split into the emission traversal
and the weighted-success fold; an exception anywhere yields `none`. -/
def allocate_and_predict (metrics : Metrics) (llm : LLMResult) : Option AllocResult :=
  let solutions := llm.proposed_solutions.getD []
  if solutions.isEmpty then some ⟨[], 0⟩
  else
    (normalizedWeights solutions).bind fun norm_weights =>
      (mapOpt (fun p => emitSolution metrics.Funding_Gap_USD p.1 p.2)
          (norm_weights.zip solutions)).map fun out =>
        ⟨out, round2 (max 0 (min 100
          (weightedSuccessOf norm_weights solutions * metrics.Stability_Index)))⟩

/-- One entry of the module-level `CRISIS_ZONE_DEFS` table (app.py
lines 45-136). -/
structure CrisisZoneDef where
  name : String
  region : String
  lat : ℚ
  lon : ℚ
  base_gap : ℚ
  base_severity : ℚ
  funding : ℚ
  required : ℚ
  pop : ℤ
  radius : ℕ

/-- The fifteen crisis-zone rows of `CRISIS_ZONE_DEFS`. -/
def CRISIS_ZONE_DEFS : List CrisisZoneDef :=
  [ ⟨"Eastern DRC", "Sub-Saharan Africa", -1.5, 29.0, 0.89, 0.92, 45, 380, 6200000, 2⟩,
    ⟨"Yemen", "Middle East", 15.5, 44.2, 0.78, 0.88, 820, 3700, 21400000, 2⟩,
    ⟨"Syria", "Middle East", 35.0, 38.5, 0.71, 0.82, 1100, 4200, 15800000, 2⟩,
    ⟨"Afghanistan", "South Asia", 33.9, 67.7, 0.85, 0.90, 530, 3600, 28500000, 2⟩,
    ⟨"Ethiopia", "East Africa", 9.1, 40.5, 0.73, 0.79, 670, 2500, 20100000, 2⟩,
    ⟨"Haiti", "Caribbean", 18.9, -72.3, 0.65, 0.72, 320, 920, 5400000, 1⟩,
    ⟨"Venezuela", "South America", 8.0, -66.0, 0.58, 0.65, 210, 500, 7200000, 1⟩,
    ⟨"Ukraine", "Eastern Europe", 49.0, 32.0, 0.42, 0.85, 3200, 5400, 14600000, 3⟩,
    ⟨"Sudan", "Northeast Africa", 15.5, 32.5, 0.81, 0.87, 190, 1000, 11200000, 2⟩,
    ⟨"Myanmar", "Southeast Asia", 19.8, 96.1, 0.75, 0.78, 145, 580, 6700000, 1⟩,
    ⟨"South Sudan", "East Africa", 7.9, 30.2, 0.88, 0.91, 95, 800, 8300000, 2⟩,
    ⟨"Gaza", "Middle East", 31.4, 34.3, 0.93, 0.97, 310, 4800, 2200000, 1⟩,
    ⟨"Somalia", "East Africa", 5.0, 46.0, 0.82, 0.88, 120, 680, 7100000, 2⟩,
    ⟨"Mozambique", "Southern Africa", -18.0, 35.5, 0.68, 0.70, 280, 870, 4100000, 1⟩,
    ⟨"Nigeria (NE)", "West Africa", 11.5, 13.5, 0.77, 0.80, 200, 880, 9800000, 2⟩ ]

/-- The `CRISIS_TYPE_BY_COUNTRY` dictionary (app.py lines 139-155). -/
def CRISIS_TYPE_BY_COUNTRY : List (String × String) :=
  [ ("Eastern DRC", "Protection"), ("Yemen", "Food & Livelihoods"),
    ("Syria", "Protection"), ("Afghanistan", "Food & Livelihoods"),
    ("Ethiopia", "Nutrition"), ("Haiti", "WASH"), ("Venezuela", "Health"),
    ("Ukraine", "Protection"), ("Sudan", "Food & Livelihoods"),
    ("Myanmar", "Protection"), ("South Sudan", "Food & Livelihoods"),
    ("Gaza", "Protection"), ("Somalia", "WASH"), ("Mozambique", "WASH"),
    ("Nigeria (NE)", "Nutrition") ]

/-- The `STABILITY_BY_REGION` dictionary (app.py lines 157-169). -/
def STABILITY_BY_REGION : List (String × ℚ) :=
  [ ("Sub-Saharan Africa", 0.58), ("Middle East", 0.52), ("South Asia", 0.55),
    ("East Africa", 0.56), ("Caribbean", 0.66), ("South America", 0.64),
    ("Eastern Europe", 0.72), ("Northeast Africa", 0.54),
    ("Southeast Asia", 0.63), ("Southern Africa", 0.69), ("West Africa", 0.59) ]

/-- One row of the needs table built by `_build_needs_df` (app.py lines
183-195). -/
structure NeedsRow where
  Year : ℤ
  Country : String
  Crisis_Type : String
  Funding_Required : ℚ
  Funding_Received : ℚ
  People_in_Need : ℤ
  Stability_Index : ℚ
deriving DecidableEq

/-- Embedding of `_build_needs_df`: one 2026 row per crisis zone, with
funding figures scaled from millions to USD, the crisis type looked up
by country (default "Food & Livelihoods") and the stability index by
region (default 0.62). -/
def build_needs_df (defs : List CrisisZoneDef) : List NeedsRow :=
  defs.map fun z =>
    { Year := 2026
      Country := z.name
      Crisis_Type := (CRISIS_TYPE_BY_COUNTRY.lookup z.name).getD "Food & Livelihoods"
      Funding_Required := z.required * 1000000
      Funding_Received := z.funding * 1000000
      People_in_Need := z.pop
      Stability_Index := (STABILITY_BY_REGION.lookup z.region).getD 0.62 }

/-- The module-level `NEEDS_DF` the simulator is constructed with. -/
def NEEDS_DF : List NeedsRow := build_needs_df CRISIS_ZONE_DEFS

/-- The metrics record assembled from the first matching row (app.py
lines 297-312); `Year` echoes the requested year, not the row year. -/
def metricsOfRow (year : ℤ) (r : NeedsRow) : Metrics :=
  let gap := max (r.Funding_Required - r.Funding_Received) 0
  { Country := r.Country
    Year := year
    Category := r.Crisis_Type
    Funding_Gap_USD := gap
    Funding_Required := r.Funding_Required
    Funding_Received := r.Funding_Received
    Underfunding_Percentage := if r.Funding_Required > 0 then gap / r.Funding_Required * 100 else 0
    People_in_Need := r.People_in_Need
    Stability_Index := r.Stability_Index }

/-- Embedding of `HumanitarianSim.get_underfunding_metrics` (app.py
lines 289-312): filter on country and exact year, fall back to the
country filter when empty, take the first row, raise (= `none`) when
both filters are empty. -/
def get_underfunding_metrics (df : List NeedsRow) (country : String) (year : ℤ) :
    Option Metrics :=
  let rows0 := df.filter (fun r => r.Country == country && r.Year == year)
  let rows := if rows0.isEmpty then df.filter (fun r => r.Country == country) else rows0
  rows.head?.map (metricsOfRow year)

/-- Model of `c.lower()` on the (ASCII) strings the code handles. -/
def pyLower (s : String) : String := ⟨s.data.map Char.toLower⟩

/-- Boolean test that the first list begins the second. -/
def startsWithChars : List Char → List Char → Bool
  | [], _ => true
  | _ :: _, [] => false
  | a :: as, b :: bs => a == b && startsWithChars as bs

/-- Boolean contiguous-substring test, the model of the Python `in`
operator on strings (needle first, haystack second). -/
def containsSub (needle : List Char) : List Char → Bool
  | [] => needle.isEmpty
  | c :: t => startsWithChars needle (c :: t) || containsSub needle t

/-- The rate-limit classifier of `fetch_un_solution` (app.py line 477):
the lowercased error text contains one of the four marker phrases. -/
def isRateLimitError (msg : String) : Bool :=
  let error_str := (pyLower msg).data
  ["429", "rate", "too many requests", "quota"].any
    (fun phrase => containsSub phrase.data error_str)

/-- The cache key of app.py line 431: lowercased country and category
joined by a colon. -/
def mkCacheKey (country category : String) : String :=
  pyLower country ++ ":" ++ pyLower category

/-- The value shape cached and returned by `fetch_un_solution`. -/
structure SolutionValue where
  analogous_country : String
  solution : String
  likelihood : ℚ
deriving DecidableEq

/-- The parsed JSON payload of one successful reasoning call inside
`fetch_un_solution`. -/
structure GroqSolutionResult where
  analogous_country : Option String := none
  solution_name : Option String := none
  likelihood_of_success : Option JVal := none

/-- Outcome of one `_groq_json` call: a parsed payload, or a raised
exception carrying its message text. -/
inductive CallOutcome where
  | success (r : GroqSolutionResult)
  | failure (msg : String)

/-- Which return statement of `fetch_un_solution` produced the result:
the pre-loop cache hit, the in-loop success return, the
rate-limit-exhausted fallback (likelihood 65), the generic failure
fallback (likelihood 60), or the post-loop terminal fallback
(likelihood 55, app.py lines 506-513). -/
inductive ExitTag where
  | cacheHit | success | rateLimitExhausted | nonRateLimit | terminal
deriving DecidableEq

/-- Observable outcome of one `fetch_un_solution` execution: the
returned value, the backoff sleeps in seconds in order, the cache after
the call, the number of reasoning calls issued, and the exit path. -/
structure FetchResult where
  value : SolutionValue
  sleeps : List ℕ
  cacheOut : List (String × SolutionValue)
  callsMade : ℕ
  exitTag : ExitTag

/-- `max_retries = 5` (app.py line 458). -/
def max_retries : ℕ := 5

/-- `retry_delay = 2` (app.py line 459). -/
def retry_delay : ℕ := 2

/-- The rate-limit-exhausted fallback value (app.py lines 488-492). -/
def rateLimitFallback : SolutionValue :=
  ⟨"Similar Crisis Region", "UN Humanitarian Response Program", 65⟩

/-- The generic-failure fallback value (app.py lines 498-502). -/
def genericFailureFallback : SolutionValue :=
  ⟨"Similar Region", "UN Emergency Response", 60⟩

/-- The post-loop terminal fallback value (app.py lines 507-511). -/
def terminalFallback : SolutionValue :=
  ⟨"Similar Region", "UN Humanitarian Response", 55⟩

/-- The clamped likelihood `max(0, min(100, r.get("likelihood_of_success",
0) or 0))` of a successful call. A non-empty string here makes the
Python comparison raise `TypeError`, which the surrounding generic
handler catches (its message contains no rate-limit marker), so that
case is `none` and is routed to the generic fallback. `min(100, True)`
evaluates to `True`, i.e. 1. -/
def successLikelihood (r : GroqSolutionResult) : Option ℚ :=
  let lv := r.likelihood_of_success.getD (.num 0)
  if jfalsy lv then some 0
  else
    match lv with
    | .num q => some (max 0 (min 100 q))
    | .bool _ => some 1
    | .str _ => none
    | .null => some 0

/-- The success value stored and returned (app.py lines 466-470). -/
def successValue (r : GroqSolutionResult) (q : ℚ) : SolutionValue :=
  ⟨r.analogous_country.getD "Unknown",
   r.solution_name.getD "UN Humanitarian Response", q⟩

/-- The retry loop of `fetch_un_solution` (app.py lines 461-513).
`calls i` is the outcome of the reasoning call on attempt `i`; `fuel`
counts the iterations `range(max_retries)` still to run, so the
`fuel = 0` branch is the code after the loop. -/
def fetch_go (key : String) (cache : List (String × SolutionValue))
    (calls : ℕ → CallOutcome) (attempt : ℕ) : ℕ → FetchResult
  | 0 => ⟨terminalFallback, [], (key, terminalFallback) :: cache, 0, .terminal⟩
  | fuel + 1 =>
    match calls attempt with
    | .success r =>
      match successLikelihood r with
      | some q =>
        let v := successValue r q
        ⟨v, [], (key, v) :: cache, 1, .success⟩
      | none =>
        ⟨genericFailureFallback, [], (key, genericFailureFallback) :: cache, 1, .nonRateLimit⟩
    | .failure msg =>
      if isRateLimitError msg then
        if attempt < max_retries - 1 then
          let rest := fetch_go key cache calls (attempt + 1) fuel
          ⟨rest.value, retry_delay * 2 ^ attempt :: rest.sleeps,
           rest.cacheOut, rest.callsMade + 1, rest.exitTag⟩
        else
          ⟨rateLimitFallback, [], (key, rateLimitFallback) :: cache, 1, .rateLimitExhausted⟩
      else
        ⟨genericFailureFallback, [], (key, genericFailureFallback) :: cache, 1, .nonRateLimit⟩

/-- Embedding of `HumanitarianSim.fetch_un_solution` (app.py lines
424-513): check the cache under the lowercased key, otherwise run the
five-attempt retry loop against the call oracle. -/
def fetch_un_solution (cache : List (String × SolutionValue))
    (country category : String) (calls : ℕ → CallOutcome) : FetchResult :=
  let key := mkCacheKey country category
  match cache.lookup key with
  | some v => ⟨v, [], cache, 0, .cacheHit⟩
  | none => fetch_go key cache calls 0 max_retries

/-- The final report record of `generate_final_report` (app.py lines
566-578). -/
structure Report where
  summary : String
  Reasoning : String
  proposed_solutions : List NormSolution
  overall_impact_score : ℚ
  country : String
  year : ℤ
  crisis_type : String
  funding_gap_usd : ℚ
  underfunding_percentage : ℚ
  people_in_need : ℤ
  stability_index : ℚ

/-- The caller-override block of `generate_final_report` (app.py lines
519-526): a truthy category replaces the category, a supplied gap is
clamped to 0, a supplied population is clamped to 0, a supplied
stability index is clamped to the interval from 0.3 to 1.2. -/
def applyOverrides (m : Metrics) (category : Option String)
    (funding_gap_usd : Option ℚ) (people_in_need : Option ℤ)
    (stability_index : Option ℚ) : Metrics :=
  let m1 := match category with
    | some c => if c = "" then m else { m with Category := c }
    | none => m
  let m2 := match funding_gap_usd with
    | some g => { m1 with Funding_Gap_USD := max 0 g }
    | none => m1
  let m3 := match people_in_need with
    | some p => { m2 with People_in_Need := max 0 p }
    | none => m2
  match stability_index with
    | some s => { m3 with Stability_Index := max 0.3 (min 1.2 s) }
    | none => m3

/-- The score-selection step of `generate_final_report` (app.py lines
559-564): take the stage-C `overall_impact_score` when present and
float-coercible (the `get` default and any coercion failure both fall
back to the local package score), then clamp to the interval from 0 to
100. -/
def selectImpactScore (quantified : LLMResult) (base_score : ℚ) : ℚ :=
  let impact0 : ℚ := match quantified.overall_impact_score with
    | none => base_score
    | some v => (pyFloat v).getD base_score
  max 0 (min 100 impact0)

/-- Embedding of `HumanitarianSim.generate_final_report` (app.py lines
515-578). The three reasoning responses (stage A `first`, stage B
`refined`, stage C `quantified`) are oracle parameters; a raised
exception anywhere in the pipeline is `none`, so no partial report
exists. The stage-B response is consumed only as stage-C input and
never merged back, which the embedding reflects by not reading
`refined`. -/
def generate_final_report (df : List NeedsRow) (country : String) (year : ℤ)
    (category : Option String) (funding_gap_usd : Option ℚ)
    (people_in_need : Option ℤ) (stability_index : Option ℚ)
    (first : LLMResult) (refined : LLMResult) (quantified : LLMResult) :
    Option Report :=
  (get_underfunding_metrics df country year).bind fun m0 =>
    let m := applyOverrides m0 category funding_gap_usd people_in_need stability_index
    (allocate_and_predict m first).map fun base =>
      let _ := refined
      { summary := first.summary.getD ""
        Reasoning := first.Reasoning.getD (first.reasoning.getD "")
        proposed_solutions := base.proposed_solutions
        overall_impact_score := round2 (selectImpactScore quantified base.package_success_score)
        country := m.Country
        year := m.Year
        crisis_type := m.Category
        funding_gap_usd := round2 m.Funding_Gap_USD
        underfunding_percentage := round2 m.Underfunding_Percentage
        people_in_need := m.People_in_Need
        stability_index := m.Stability_Index }

/-! Helper lemmas shared by the claim theorems. -/

lemma round2_eval (q : ℚ) (z : ℤ) (h1 : (z : ℚ) ≤ q * 100 + 1/2)
    (h2 : q * 100 + 1/2 < z + 1) : round2 q = (z : ℚ) / 100 := by
  unfold round2
  rw [round_eq, Int.floor_eq_iff.mpr ⟨h1, h2⟩]

lemma round2_zero : round2 0 = 0 := by
  unfold round2
  norm_num

lemma round2_hundred : round2 100 = 100 := by
  have : ((100 : ℚ) * 100) = ((10000 : ℤ) : ℚ) := by norm_num
  unfold round2
  rw [this, round_intCast]
  norm_num

lemma round2_mono {a b : ℚ} (h : a ≤ b) : round2 a ≤ round2 b := by
  unfold round2
  have hr : round (a * 100) ≤ round (b * 100) := by
    rw [round_eq, round_eq]
    exact Int.floor_mono (by linarith)
  exact div_le_div_of_nonneg_right (by exact_mod_cast hr) (by norm_num)

lemma round2_nonneg {a : ℚ} (h : 0 ≤ a) : 0 ≤ round2 a :=
  round2_zero ▸ round2_mono h

lemma round2_le_hundred {a : ℚ} (h : a ≤ 100) : round2 a ≤ 100 :=
  round2_hundred ▸ round2_mono h

lemma abs_round2_sub (q : ℚ) : |round2 q - q| ≤ 1 / 200 := by
  unfold round2
  have h := abs_sub_round (q * 100)
  have h2 : ((round (q * 100) : ℤ) : ℚ) / 100 - q = -((q * 100 - round (q * 100)) / 100) := by
    ring
  rw [h2, abs_neg, abs_div, abs_of_pos (by norm_num : (0:ℚ) < 100)]
  rw [div_le_div_iff₀ (by norm_num) (by norm_num)]
  nlinarith [h]

lemma mapOpt_length {f : α → Option β} :
    ∀ {l : List α} {out : List β}, mapOpt f l = some out → out.length = l.length := by
  intro l
  induction l with
  | nil => intro out h; simp [mapOpt] at h; simp [← h]
  | cons a t ih =>
    intro out h
    simp only [mapOpt] at h
    cases hfa : f a with
    | none => rw [hfa] at h; simp at h
    | some b =>
      rw [hfa] at h
      cases hmt : mapOpt f t with
      | none => rw [hmt] at h; simp at h
      | some bs =>
        rw [hmt] at h
        simp at h
        subst h
        simp [ih hmt]

lemma mapOpt_map_eq {f : α → Option β} {g : β → γ} {h : α → γ}
    (hfg : ∀ a b, f a = some b → g b = h a) :
    ∀ {l : List α} {out : List β}, mapOpt f l = some out → out.map g = l.map h := by
  intro l
  induction l with
  | nil => intro out hm; simp [mapOpt] at hm; simp [← hm]
  | cons a t ih =>
    intro out hm
    simp only [mapOpt] at hm
    cases hfa : f a with
    | none => rw [hfa] at hm; simp at hm
    | some b =>
      rw [hfa] at hm
      cases hmt : mapOpt f t with
      | none => rw [hmt] at hm; simp at hm
      | some bs =>
        rw [hmt] at hm
        simp at hm
        subst hm
        simp [ih hmt, hfg a b hfa]

lemma mapOpt_get {f : α → Option β} :
    ∀ {l : List α} {out : List β}, mapOpt f l = some out →
      ∀ i (hi : i < l.length) (ho : i < out.length),
        f (l.get ⟨i, hi⟩) = some (out.get ⟨i, ho⟩) := by
  intro l
  induction l with
  | nil => intro out _ i hi; exact absurd hi (by simp)
  | cons a t ih =>
    intro out hm i hi ho
    simp only [mapOpt] at hm
    cases hfa : f a with
    | none => rw [hfa] at hm; simp at hm
    | some b =>
      rw [hfa] at hm
      cases hmt : mapOpt f t with
      | none => rw [hmt] at hm; simp at hm
      | some bs =>
        rw [hmt] at hm
        simp at hm
        subst hm
        cases i with
        | zero => simpa using hfa
        | succ j =>
          have hj : j < t.length := by simpa using hi
          have hj' : j < bs.length := by simpa using ho
          simpa using ih hmt j hj hj'

lemma mapOpt_replicate {f : α → Option β} {a : α} {b : β} (hfa : f a = some b) :
    ∀ n, mapOpt f (List.replicate n a) = some (List.replicate n b) := by
  intro n
  induction n with
  | zero => simp [mapOpt]
  | succ k ih => simp [List.replicate_succ, mapOpt, hfa, ih]

lemma sum_map_div (l : List ℚ) (c : ℚ) : (l.map (· / c)).sum = l.sum / c := by
  induction l with
  | nil => simp
  | cons a t ih => simp [ih, add_div]

lemma sum_map_mul_const (l : List ℚ) (c : ℚ) : (l.map (· * c)).sum = l.sum * c := by
  induction l with
  | nil => simp
  | cons a t ih => simp [ih, add_mul]

lemma abs_sum_map_sub_le {α : Type} (f g : α → ℚ) (c : ℚ) (h : ∀ x, |f x - g x| ≤ c) :
    ∀ l : List α, |(l.map f).sum - (l.map g).sum| ≤ l.length * c := by
  intro l
  induction l with
  | nil => simp
  | cons a t ih =>
    simp only [List.map_cons, List.sum_cons, List.length_cons]
    have tri : |f a + (t.map f).sum - (g a + (t.map g).sum)| ≤
        |f a - g a| + |(t.map f).sum - (t.map g).sum| := by
      have : f a + (t.map f).sum - (g a + (t.map g).sum) =
          (f a - g a) + ((t.map f).sum - (t.map g).sum) := by ring
      rw [this]
      exact abs_add _ _
    calc |f a + (t.map f).sum - (g a + (t.map g).sum)|
        ≤ |f a - g a| + |(t.map f).sum - (t.map g).sum| := tri
      _ ≤ c + t.length * c := add_le_add (h a) ih
      _ = (t.length + 1) * c := by ring
      _ = ((t.length + 1 : ℕ) : ℚ) * c := by push_cast; ring

lemma normalizedWeights_sum {sols : List RawSolution} {ws : List ℚ}
    (hne : sols ≠ []) (h : normalizedWeights sols = some ws) :
    ws.sum = 1 ∧ ws.length = sols.length := by
  unfold normalizedWeights at h
  cases hra : rawAllocs sols with
  | none => rw [hra] at h; simp at h
  | some avs =>
    rw [hra] at h
    simp only [Option.map_some', Option.some.injEq] at h
    have hlen : avs.length = sols.length := mapOpt_length hra
    have hn : (sols.length : ℚ) ≠ 0 := by
      simp [List.length_eq_zero]
      exact hne
    by_cases hs : avs.sum ≤ 0
    · simp only [if_pos hs] at h
      subst h
      constructor
      · rw [sum_map_div, List.sum_replicate, nsmul_eq_mul]
        field_simp
      · simp
    · simp only [if_neg hs] at h
      subst h
      push_neg at hs
      constructor
      · rw [sum_map_div, div_self (ne_of_gt hs)]
      · simp [hlen]

lemma allocate_and_predict_some {m : Metrics} {llm : LLMResult} {out : AllocResult}
    (hne : llm.proposed_solutions.getD [] ≠ [])
    (h : allocate_and_predict m llm = some out) :
    ∃ ws, normalizedWeights (llm.proposed_solutions.getD []) = some ws ∧
      mapOpt (fun p => emitSolution m.Funding_Gap_USD p.1 p.2)
        (ws.zip (llm.proposed_solutions.getD [])) = some out.proposed_solutions ∧
      out.package_success_score = round2 (max 0 (min 100
        (weightedSuccessOf ws (llm.proposed_solutions.getD []) * m.Stability_Index))) := by
  unfold allocate_and_predict at h
  rw [if_neg (by simpa [List.isEmpty_iff] using hne)] at h
  cases hnw : normalizedWeights (llm.proposed_solutions.getD []) with
  | none => rw [hnw] at h; simp at h
  | some ws =>
    rw [hnw] at h
    simp only [Option.some_bind] at h
    cases hme : mapOpt (fun p => emitSolution m.Funding_Gap_USD p.1 p.2)
        (ws.zip (llm.proposed_solutions.getD [])) with
    | none => rw [hme] at h; simp at h
    | some outs =>
      rw [hme] at h
      simp only [Option.map_some', Option.some.injEq] at h
      subst h
      exact ⟨ws, rfl, hme, rfl⟩

/-! Concrete fixtures shared by several claim proofs. -/

/-- A fixed metrics record driving concrete Normalizer runs: funding
gap 100, stability index 1. -/
def mDemo : Metrics :=
  { Country := "Demo", Year := 2026, Category := "Health", Funding_Gap_USD := 100,
    Funding_Required := 200, Funding_Received := 100, Underfunding_Percentage := 50,
    People_in_Need := 1000, Stability_Index := 1 }

/-- A raw solution whose only supplied field is the allocation. -/
def allocOnly (v : JVal) : RawSolution := { allocation_percentage := some v }

/-- C1: counterexample. The claim says the Normalizer parses the
allocation field by the percent rule and returns without failing on a
percent-formatted string such as "45%" or an unparsable string such as
"bad". In the code (app.py line 342) the allocation goes through plain
`float(... or 0)`, which raises `ValueError` on both strings, so
`allocate_and_predict` fails (returns `none` in the embedding) on a
single-solution list carrying either value. -/
theorem alloc_percent_string_raises_cex :
    allocate_and_predict mDemo { proposed_solutions := some [allocOnly (.str "45%")] } = none ∧
    allocate_and_predict mDemo { proposed_solutions := some [allocOnly (.str "bad")] } = none := by
  constructor <;> decide

/-- C1 (amended): the percent rule (numeric used directly, percent
signs stripped, unparsable yielding 0) is implemented by
`parse_percent` and applied only to `success_likelihood`; the
allocation field instead goes through `floatOrZero` (plain
`float(value or 0)`), which uses numbers directly and maps absent,
null or falsy values to 0 but fails on strings such as "45%" or "bad",
making the Normalizer raise on such a solution list. -/
theorem alloc_float_coercion_amended :
    parse_percent (.str "45%") = 45 ∧ parse_percent (.str "bad") = 0 ∧
    parse_percent (.num 30) = 30 ∧
    floatOrZero (some (.str "45%")) = none ∧
    floatOrZero (some (.str "bad")) = none ∧
    floatOrZero none = some 0 ∧ floatOrZero (some .null) = some 0 ∧
    (∀ q : ℚ, floatOrZero (some (.num q)) = some q) ∧
    allocate_and_predict mDemo { proposed_solutions := some [allocOnly (.str "bad")] } = none := by
  refine ⟨by decide, by decide, by decide, by decide, by decide, by decide, by decide, ?_, by decide⟩
  intro q
  by_cases hq : q = 0
  · simp [floatOrZero, jfalsy, hq]
  · simp [floatOrZero, jfalsy, hq, pyFloat]

lemma round1_zero : round1 0 = 0 := by
  unfold round1
  norm_num

lemma emitSolution_spec {gap w : ℚ} {sol : RawSolution} {ns : NormSolution}
    (h : emitSolution gap w sol = some ns) :
    ns.allocation_percentage = round2 (w * 100) ∧
    intOrZero sol.projected_impact_count = some ns.projected_impact_count := by
  unfold emitSolution at h
  cases ha : floatOrZero sol.allocated_amount with
  | none => rw [ha] at h; simp at h
  | some a0 =>
    cases hi : intOrZero sol.projected_impact_count with
    | none => rw [ha, hi] at h; simp at h
    | some imp =>
      rw [ha, hi] at h
      dsimp only at h
      simp only [Option.some.injEq] at h
      subst h
      exact ⟨rfl, rfl⟩

/-- A raw solution with a numeric allocation of 50 and a projected
impact count of -5. -/
def solNeg : RawSolution :=
  { allocation_percentage := some (.num 50), projected_impact_count := some (.num (-5)) }

lemma allocate_solNeg_eval :
    allocate_and_predict mDemo { proposed_solutions := some [solNeg] } =
      some ⟨[⟨"Unknown", "Unknown", 100, 100, 0, -5, ""⟩], 0⟩ := by
  have h1 : rawAllocs [solNeg] = some [50] := by decide
  have h2 : normalizedWeights [solNeg] = some [1] := by
    unfold normalizedWeights
    rw [h1]
    norm_num
  have h3 : emitSolution 100 1 solNeg = some ⟨"Unknown", "Unknown", 100, 100, 0, -5, ""⟩ := by
    unfold emitSolution
    have ha : floatOrZero solNeg.allocated_amount = some 0 := by decide
    have hi : intOrZero solNeg.projected_impact_count = some (-5) := by decide
    rw [ha, hi]
    dsimp only
    have hsl : parse_percent (solNeg.success_likelihood.getD (.num 0)) = 0 := by decide
    rw [hsl]
    norm_num [round1_zero, round2_hundred, solNeg]
  unfold allocate_and_predict
  rw [if_neg (by simp)]
  have hgd : ({ proposed_solutions := some [solNeg] } : LLMResult).proposed_solutions.getD []
      = [solNeg] := rfl
  simp only [hgd]
  rw [h2]
  simp only [Option.some_bind]
  rw [show ([1] : List ℚ).zip [solNeg] = [(1, solNeg)] from rfl]
  rw [show mDemo.Funding_Gap_USD = 100 from rfl]
  simp only [mapOpt, h3, Option.map_some']
  have hws : weightedSuccessOf [1] [solNeg] = 0 := by
    unfold weightedSuccessOf
    have : parse_percent (solNeg.success_likelihood.getD (.num 0)) = 0 := by decide
    simp [this]
  rw [hws]
  norm_num [round2_zero, mDemo]

/-- C4: counterexample. The claim says `projected_impact_count` is
always a non-negative integer, a negative supplied value being coerced
to at least 0. In the code (app.py line 369) the coercion is
`int(value or 0)`, which keeps a negative value: on a solution with
`projected_impact_count = -5` the Normalizer emits -5, a negative
count. -/
theorem projected_impact_negative_cex :
    (allocate_and_predict mDemo { proposed_solutions := some [solNeg] }).map
        (fun o => o.proposed_solutions.map (fun s => s.projected_impact_count)) =
      some [-5] ∧ (-5 : ℤ) < 0 := by
  rw [allocate_solNeg_eval]
  norm_num

/-- C4 (amended): the emitted `projected_impact_count` of every output
solution equals `int(value or 0)` of the corresponding input field
(`intOrZero`): 0 when the field is absent or falsy, the truncation
toward zero of a numeric value — which may be negative — and a raised
exception (Normalizer failure) on a non-numeric string such as "abc". -/
theorem projected_impact_coercion_amended (m : Metrics) (llm : LLMResult) (out : AllocResult)
    (h : allocate_and_predict m llm = some out) :
    (∀ i (hi : i < (llm.proposed_solutions.getD []).length)
        (ho : i < out.proposed_solutions.length),
        intOrZero (((llm.proposed_solutions.getD []).get ⟨i, hi⟩).projected_impact_count) =
          some ((out.proposed_solutions.get ⟨i, ho⟩).projected_impact_count)) ∧
    intOrZero none = some 0 ∧
    (∀ v, jfalsy v = true → intOrZero (some v) = some 0) ∧
    (∀ q : ℚ, intOrZero (some (.num q)) = some (ratTrunc q)) ∧
    intOrZero (some (.str "abc")) = none := by
  refine ⟨?_, by decide, ?_, ?_, by decide⟩
  · intro i hi ho
    by_cases hne : llm.proposed_solutions.getD [] = []
    · rw [hne] at hi
      exact absurd hi (by simp)
    · obtain ⟨ws, hnw, hme, -⟩ := allocate_and_predict_some hne h
      have hlen := (normalizedWeights_sum hne hnw).2
      have hziplen : (ws.zip (llm.proposed_solutions.getD [])).length =
          (llm.proposed_solutions.getD []).length := by
        simp [List.length_zip, hlen]
      have hg := mapOpt_get hme i (by rw [hziplen]; exact hi) ho
      have hz : (ws.zip (llm.proposed_solutions.getD [])).get
            ⟨i, by rw [hziplen]; exact hi⟩ =
          (ws.get ⟨i, by rw [hlen]; exact hi⟩,
           (llm.proposed_solutions.getD []).get ⟨i, hi⟩) := by
        apply List.get_zip
      rw [hz] at hg
      exact (emitSolution_spec hg).2
  · intro v hv
    simp [intOrZero, hv]
  · intro q
    by_cases hq : q = 0
    · subst hq
      have h0 : ratTrunc (0 : ℚ) = 0 := by
        unfold ratTrunc
        norm_num
      simp [intOrZero, jfalsy, h0]
    · simp [intOrZero, jfalsy, hq, pyInt]

/-- C4: witness for the amended theorem, instantiated at the concrete
negative-impact run. -/
theorem projected_impact_coercion_witness :
    intOrZero solNeg.projected_impact_count = some (-5) ∧ intOrZero none = some 0 := by
  have h := projected_impact_coercion_amended mDemo
    { proposed_solutions := some [solNeg] } _ allocate_solNeg_eval
  refine ⟨?_, h.2.1⟩
  have := h.1 0 (by simp) (by simp)
  simpa using this

lemma zip_replicate_same (a : α) (b : β) :
    ∀ n, (List.replicate n a).zip (List.replicate n b) = List.replicate n (a, b) := by
  intro n
  induction n with
  | zero => simp
  | succ k ih => simp [List.replicate_succ, ih]

/-- The 60-identical-default-solution request driving the C2
counterexample. -/
def llm60 : LLMResult := { proposed_solutions := some (List.replicate 60 {}) }

/-- The solution record `allocate_and_predict` emits for each of the 60
defaulted solutions: equal weight 1/60, allocation percentage
round(5/3, 2) = 1.67, amount 100 * (1/60) rounded likewise. -/
def ns60 : NormSolution := ⟨"Unknown", "Unknown", 167/100, 167/100, 0, 0, ""⟩

lemma round2_five_thirds : round2 (5/3) = 167/100 := by
  rw [round2_eval (5/3) 167 (by norm_num) (by norm_num)]
  norm_num

lemma allocate_llm60_eval :
    allocate_and_predict mDemo llm60 = some ⟨List.replicate 60 ns60, 0⟩ := by
  have hf : (fun s : RawSolution => floatOrZero s.allocation_percentage) {} = some 0 := by decide
  have hra : rawAllocs (List.replicate 60 {}) = some (List.replicate 60 0) :=
    mapOpt_replicate hf 60
  have hnw : normalizedWeights (List.replicate 60 {}) = some (List.replicate 60 (5/300)) := by
    unfold normalizedWeights
    rw [hra]
    simp only [Option.map_some', Option.some.injEq, List.length_replicate]
    rw [if_pos (by simp : (List.replicate 60 (0:ℚ)).sum ≤ 0)]
    simp only [List.map_replicate]
    norm_num
  have hemit : (fun p : ℚ × RawSolution => emitSolution mDemo.Funding_Gap_USD p.1 p.2)
      ((5:ℚ)/300, ({} : RawSolution)) = some ns60 := by
    have e1 : (fun p : ℚ × RawSolution => emitSolution mDemo.Funding_Gap_USD p.1 p.2)
        ((5:ℚ)/300, ({} : RawSolution)) =
        some ⟨"Unknown", "Unknown", round2 (5/300 * 100), round2 (100 * (5/300)),
              round1 (parse_percent (JVal.num 0)), 0, ""⟩ := rfl
    rw [e1]
    have a1 : (5/300 : ℚ) * 100 = 5/3 := by norm_num
    have a2 : (100 : ℚ) * (5/300) = 5/3 := by norm_num
    rw [a1, a2, round2_five_thirds, show parse_percent (JVal.num 0) = 0 from rfl, round1_zero]
    rfl
  have hme : mapOpt (fun p : ℚ × RawSolution => emitSolution mDemo.Funding_Gap_USD p.1 p.2)
      (List.replicate 60 ((5:ℚ)/300, ({} : RawSolution))) = some (List.replicate 60 ns60) :=
    mapOpt_replicate hemit 60
  have hws : weightedSuccessOf (List.replicate 60 (5/300)) (List.replicate 60 {}) = 0 := by
    unfold weightedSuccessOf
    rw [zip_replicate_same, List.map_replicate]
    norm_num [parse_percent]
  unfold allocate_and_predict
  have hgd : llm60.proposed_solutions.getD [] = List.replicate 60 {} := rfl
  simp only [hgd]
  rw [if_neg (by simp)]
  rw [hnw]
  simp only [Option.some_bind]
  rw [zip_replicate_same, hme]
  simp only [Option.map_some']
  rw [hws]
  norm_num [round2_zero, mDemo]

/-- C2: counterexample. The claim bounds the deviation of the summed
allocation percentages from 100 by 0.1 for every non-empty solution
list. With 60 solutions carrying no allocations the repaired equal
weights are 1/60 each, every emitted percentage is round(5/3, 2) =
1.67, and the sum is 100.2, deviating by 0.2 > 0.1 (matching CPython,
where the computed weight rounds to 1.67 as well). -/
theorem alloc_sum_tolerance_cex :
    (allocate_and_predict mDemo llm60).map
        (fun o => (o.proposed_solutions.map (fun s => s.allocation_percentage)).sum) =
      some (501/5) ∧ ¬(|(501/5 : ℚ) - 100| ≤ 1/10) := by
  constructor
  · rw [allocate_llm60_eval]
    simp only [Option.map_some', List.map_replicate, List.sum_replicate, ns60]
    norm_num
  · rw [abs_of_nonneg (by norm_num)]
    norm_num

/-- C2 (amended): for every non-empty raw solution list on which the
Normalizer returns normally, the emitted allocation percentages sum to
100 within n/200, where n is the number of output solutions (each
2-decimal rounding moves a percentage by at most 1/200); in particular
the claimed 0.1 tolerance holds whenever n ≤ 20, but not in general. -/
theorem alloc_sum_near_100 (m : Metrics) (llm : LLMResult) (out : AllocResult)
    (hne : llm.proposed_solutions.getD [] ≠ [])
    (h : allocate_and_predict m llm = some out) :
    |(out.proposed_solutions.map (fun s => s.allocation_percentage)).sum - 100| ≤
      (out.proposed_solutions.length : ℚ) / 200 ∧
    (out.proposed_solutions.length ≤ 20 →
      |(out.proposed_solutions.map (fun s => s.allocation_percentage)).sum - 100| ≤ 1/10) := by
  obtain ⟨ws, hnw, hme, -⟩ := allocate_and_predict_some hne h
  obtain ⟨hwsum, hwlen⟩ := normalizedWeights_sum hne hnw
  set sols := llm.proposed_solutions.getD [] with hsols
  have hziplen : (ws.zip sols).length = ws.length := by
    simp [List.length_zip, hwlen]
  have holen : out.proposed_solutions.length = ws.length := by
    rw [mapOpt_length hme, hziplen]
  have hmap : out.proposed_solutions.map (fun s => s.allocation_percentage) =
      (ws.zip sols).map (fun p => round2 (p.1 * 100)) := by
    refine mapOpt_map_eq ?_ hme
    intro p ns hp
    exact (emitSolution_spec hp).1
  have hfst : (ws.zip sols).map (fun p : ℚ × RawSolution => p.1 * 100) =
      ws.map (fun w => w * 100) := by
    have : (fun p : ℚ × RawSolution => p.1 * 100) = (fun w => w * 100) ∘ Prod.fst := rfl
    rw [this, ← List.map_map, List.map_fst_zip ws sols (le_of_eq hwlen)]
  have hsum100 : ((ws.zip sols).map (fun p : ℚ × RawSolution => p.1 * 100)).sum = 100 := by
    rw [hfst]
    rw [show (fun w : ℚ => w * 100) = (· * 100) from rfl, sum_map_mul_const, hwsum]
    norm_num
  have hbound := abs_sum_map_sub_le (fun p : ℚ × RawSolution => round2 (p.1 * 100))
    (fun p : ℚ × RawSolution => p.1 * 100) (1/200)
    (fun p => abs_round2_sub (p.1 * 100)) (ws.zip sols)
  rw [hsum100, hziplen] at hbound
  rw [hmap]
  constructor
  · rw [holen]
    calc |((ws.zip sols).map (fun p => round2 (p.1 * 100))).sum - 100|
        ≤ ws.length * (1/200) := hbound
      _ = (ws.length : ℚ) / 200 := by ring
  · intro hle
    rw [holen] at hle
    have h20 : (ws.length : ℚ) ≤ 20 := by exact_mod_cast hle
    calc |((ws.zip sols).map (fun p => round2 (p.1 * 100))).sum - 100|
        ≤ ws.length * (1/200) := hbound
      _ ≤ 20 * (1/200) := by
          apply mul_le_mul_of_nonneg_right h20
          norm_num
      _ = 1/10 := by norm_num

/-- C2: witness for the amended bound, instantiated at the concrete
60-solution run (sum 100.2, bound 60/200 = 0.3). -/
theorem alloc_sum_near_100_witness :
    |((List.replicate 60 ns60).map (fun s => s.allocation_percentage)).sum - 100| ≤
      ((List.replicate 60 ns60).length : ℚ) / 200 := by
  have h := alloc_sum_near_100 mDemo llm60 ⟨List.replicate 60 ns60, 0⟩
    (by simp [llm60]) allocate_llm60_eval
  exact h.1

/-- C3: for every metrics record and raw solution list on which the
Normalizer returns normally, the returned `package_success_score`
equals `round(clamp(weightedSuccess * stabilityIndex, 0, 100), 2)`
computed from the normalized weights and the percent-parsed success
likelihoods; consequently it lies in the interval from 0 to 100, and it
is exactly 0 for an empty raw solution list. -/
theorem package_success_score_formula (m : Metrics) (llm : LLMResult) (out : AllocResult)
    (h : allocate_and_predict m llm = some out) :
    (∃ ws, normalizedWeights (llm.proposed_solutions.getD []) = some ws ∧
      out.package_success_score = round2 (max 0 (min 100
        (weightedSuccessOf ws (llm.proposed_solutions.getD []) * m.Stability_Index)))) ∧
    0 ≤ out.package_success_score ∧ out.package_success_score ≤ 100 ∧
    (llm.proposed_solutions.getD [] = [] → out.package_success_score = 0) := by
  by_cases hne : llm.proposed_solutions.getD [] = []
  · have hout : out = ⟨[], 0⟩ := by
      unfold allocate_and_predict at h
      rw [hne] at h
      simpa using h.symm
    subst hout
    refine ⟨⟨[], ?_, ?_⟩, le_refl 0, by norm_num, fun _ => rfl⟩
    · rw [hne]
      decide
    · rw [hne]
      show (0 : ℚ) = round2 (max 0 (min 100 (weightedSuccessOf [] [] * m.Stability_Index)))
      have hw : weightedSuccessOf [] [] = 0 := by simp [weightedSuccessOf]
      rw [hw, zero_mul]
      rw [show max (0:ℚ) (min 100 0) = 0 by norm_num]
      exact round2_zero.symm
  · obtain ⟨ws, hnw, hme, hscore⟩ := allocate_and_predict_some hne h
    refine ⟨⟨ws, hnw, hscore⟩, ?_, ?_, fun he => absurd he hne⟩
    · rw [hscore]
      exact round2_nonneg (le_max_left _ _)
    · rw [hscore]
      apply round2_le_hundred
      exact max_le (by norm_num) (min_le_left _ _)

/-- C3: witness, the score bounds instantiated at the concrete
60-solution run. -/
theorem package_success_score_formula_witness :
    0 ≤ (AllocResult.mk (List.replicate 60 ns60) 0).package_success_score ∧
    (AllocResult.mk (List.replicate 60 ns60) 0).package_success_score ≤ 100 := by
  have h := package_success_score_formula mDemo llm60 ⟨List.replicate 60 ns60, 0⟩
    allocate_llm60_eval
  exact ⟨h.2.1, h.2.2.1⟩

lemma metricsOfRow_gap_pct (year : ℤ) (r : NeedsRow) :
    (metricsOfRow year r).Funding_Gap_USD =
      max ((metricsOfRow year r).Funding_Required - (metricsOfRow year r).Funding_Received) 0 ∧
    (metricsOfRow year r).Underfunding_Percentage =
      (if (metricsOfRow year r).Funding_Required > 0 then
        (metricsOfRow year r).Funding_Gap_USD / (metricsOfRow year r).Funding_Required * 100
       else 0) := by
  constructor <;> rfl

lemma get_underfunding_metrics_shape {df : List NeedsRow} {country : String} {year : ℤ}
    {m : Metrics} (h : get_underfunding_metrics df country year = some m) :
    ∃ r, m = metricsOfRow year r := by
  unfold get_underfunding_metrics at h
  dsimp only at h
  set rows := if (df.filter (fun r => r.Country == country && r.Year == year)).isEmpty
    then df.filter (fun r => r.Country == country)
    else df.filter (fun r => r.Country == country && r.Year == year) with hrows
  cases hh : rows.head? with
  | none => rw [hh] at h; simp at h
  | some r =>
    rw [hh] at h
    simp only [Option.map_some', Option.some.injEq] at h
    exact ⟨r, h.symm⟩

/-- The needs row `_build_needs_df` produces for Yemen. -/
def yemenRow : NeedsRow :=
  ⟨2026, "Yemen", "Food & Livelihoods", 3700000000, 820000000, 21400000, 0.52⟩

lemma needs_filter_yemen :
    NEEDS_DF.filter (fun r => r.Country == "Yemen" && r.Year == (2026 : ℤ)) = [yemenRow] := by
  simp only [NEEDS_DF, build_needs_df, CRISIS_ZONE_DEFS, CRISIS_TYPE_BY_COUNTRY,
    STABILITY_BY_REGION, List.map_cons, List.map_nil]
  simp only [List.lookup]
  simp [List.filter_cons]
  norm_num [yemenRow, NeedsRow.mk.injEq]

lemma metrics_yemen_eval :
    get_underfunding_metrics NEEDS_DF "Yemen" 2026 = some (metricsOfRow 2026 yemenRow) := by
  unfold get_underfunding_metrics
  dsimp only
  rw [needs_filter_yemen]
  simp [List.head?]

/-- C5: for every metrics record the extractor returns, the funding gap
equals `max(required - received, 0)` and the underfunding percentage is
`gap/required*100` guarded by `required > 0` (0 otherwise, no division
error); concretely for region Yemen in 2026 (required 3.7e9, received
8.2e8) the gap is 2.88e9 and the percentage is within 0.01 of 77.84. -/
theorem funding_gap_metrics :
    (∀ (df : List NeedsRow) (country : String) (year : ℤ) (m : Metrics),
      get_underfunding_metrics df country year = some m →
        m.Funding_Gap_USD = max (m.Funding_Required - m.Funding_Received) 0 ∧
        m.Underfunding_Percentage =
          (if m.Funding_Required > 0 then m.Funding_Gap_USD / m.Funding_Required * 100 else 0)) ∧
    (∃ m, get_underfunding_metrics NEEDS_DF "Yemen" 2026 = some m ∧
      m.Funding_Gap_USD = 2880000000 ∧ m.Funding_Required = 3700000000 ∧
      m.Funding_Received = 820000000 ∧ |m.Underfunding_Percentage - 7784/100| < 1/100) := by
  constructor
  · intro df country year m h
    obtain ⟨r, hm⟩ := get_underfunding_metrics_shape h
    subst hm
    exact metricsOfRow_gap_pct year r
  · refine ⟨metricsOfRow 2026 yemenRow, metrics_yemen_eval, ?_, rfl, rfl, ?_⟩
    · show max ((3700000000 : ℚ) - 820000000) 0 = 2880000000
      rw [show (3700000000 : ℚ) - 820000000 = 2880000000 by norm_num]
      exact max_eq_left (by norm_num)
    · have hpct : (metricsOfRow 2026 yemenRow).Underfunding_Percentage = 2880/37 := by
        show (if (3700000000:ℚ) > 0 then
          max ((3700000000:ℚ) - 820000000) 0 / 3700000000 * 100 else 0) = 2880/37
        rw [if_pos (by norm_num)]
        rw [show (3700000000 : ℚ) - 820000000 = 2880000000 by norm_num]
        rw [max_eq_left (by norm_num)]
        norm_num
      rw [hpct, abs_sub_lt_iff]
      constructor <;> norm_num

/-- C5: witness, the gap/percentage equations instantiated at the
Yemen 2026 record. -/
theorem funding_gap_metrics_witness :
    (metricsOfRow 2026 yemenRow).Funding_Gap_USD =
      max ((metricsOfRow 2026 yemenRow).Funding_Required -
           (metricsOfRow 2026 yemenRow).Funding_Received) 0 ∧
    (metricsOfRow 2026 yemenRow).Underfunding_Percentage =
      (if (metricsOfRow 2026 yemenRow).Funding_Required > 0 then
        (metricsOfRow 2026 yemenRow).Funding_Gap_USD /
          (metricsOfRow 2026 yemenRow).Funding_Required * 100
       else 0) :=
  funding_gap_metrics.1 NEEDS_DF "Yemen" 2026 (metricsOfRow 2026 yemenRow) metrics_yemen_eval

/-- C9: the extractor uses the first row matching both country and the
exact requested year; when no row matches that year it uses the first
row matching the country alone; and it fails (returns `none`, the
embedding of the raised lookup error) exactly when no row matches the
country at all. -/
theorem metrics_lookup_fallback (df : List NeedsRow) (country : String) (year : ℤ) :
    (get_underfunding_metrics df country year = none ↔ ∀ r ∈ df, r.Country ≠ country) ∧
    (∀ r rest, df.filter (fun x => x.Country == country && x.Year == year) = r :: rest →
      get_underfunding_metrics df country year = some (metricsOfRow year r)) ∧
    (df.filter (fun x => x.Country == country && x.Year == year) = [] →
      ∀ r rest, df.filter (fun x => x.Country == country) = r :: rest →
        get_underfunding_metrics df country year = some (metricsOfRow year r)) := by
  refine ⟨⟨?_, ?_⟩, ?_, ?_⟩
  · intro hnone
    unfold get_underfunding_metrics at hnone
    dsimp only at hnone
    by_cases h0 : (df.filter (fun x => x.Country == country && x.Year == year)).isEmpty
    · rw [if_pos h0] at hnone
      intro r hr hc
      have hhd : (df.filter (fun x => x.Country == country)).head? = none := by
        cases hh : (df.filter (fun x => x.Country == country)).head? with
        | none => rfl
        | some a => rw [hh] at hnone; simp at hnone
      rw [List.head?_eq_none_iff, List.filter_eq_nil_iff] at hhd
      exact hhd r hr (by simp [hc])
    · rw [if_neg h0] at hnone
      exfalso
      cases hh : (df.filter (fun x => x.Country == country && x.Year == year)).head? with
      | none =>
        rw [List.head?_eq_none_iff] at hh
        rw [hh] at h0
        simp at h0
      | some a => rw [hh] at hnone; simp at hnone
  · intro hall
    unfold get_underfunding_metrics
    dsimp only
    have h2 : df.filter (fun x => x.Country == country) = [] := by
      rw [List.filter_eq_nil_iff]
      intro a ha
      simp only [beq_iff_eq]
      exact hall a ha
    have h1 : df.filter (fun x => x.Country == country && x.Year == year) = [] := by
      rw [List.filter_eq_nil_iff]
      intro a ha
      simp only [Bool.and_eq_true, beq_iff_eq, not_and]
      intro hc
      exact absurd hc (hall a ha)
    rw [h1, h2]
    simp
  · intro r rest hf
    unfold get_underfunding_metrics
    dsimp only
    rw [hf]
    simp
  · intro hempty r rest hf
    unfold get_underfunding_metrics
    dsimp only
    rw [hempty, hf]
    simp

/-- C9: witness, the exact-year branch instantiated at the Yemen 2026
lookup. -/
theorem metrics_lookup_fallback_witness :
    get_underfunding_metrics NEEDS_DF "Yemen" 2026 = some (metricsOfRow 2026 yemenRow) :=
  (metrics_lookup_fallback NEEDS_DF "Yemen" 2026).2.1 yemenRow [] needs_filter_yemen

lemma fetch_go_caches (key : String) (cache : List (String × SolutionValue))
    (calls : ℕ → CallOutcome) :
    ∀ fuel attempt,
      (fetch_go key cache calls attempt fuel).cacheOut.lookup key =
        some (fetch_go key cache calls attempt fuel).value := by
  intro fuel
  induction fuel with
  | zero => intro attempt; simp [fetch_go]
  | succ f ih =>
    intro attempt
    simp only [fetch_go]
    cases hc : calls attempt with
    | success r =>
      cases hsl : successLikelihood r with
      | some q => simp [hsl]
      | none => simp [hsl]
    | failure msg =>
      by_cases hrl : isRateLimitError msg
      · by_cases hlt : attempt < max_retries - 1
        · simp [hrl, hlt, ih]
        · simp [hrl, hlt]
      · simp [hrl]

lemma fetch_caches (cache : List (String × SolutionValue)) (country category : String)
    (calls : ℕ → CallOutcome) :
    (fetch_un_solution cache country category calls).cacheOut.lookup
        (mkCacheKey country category) =
      some (fetch_un_solution cache country category calls).value := by
  simp only [fetch_un_solution]
  cases hl : cache.lookup (mkCacheKey country category) with
  | some v => simp [hl]
  | none =>
    simp only [hl]
    exact fetch_go_caches _ _ _ _ _

lemma fetch_go_no_terminal (key : String) (cache : List (String × SolutionValue))
    (calls : ℕ → CallOutcome) :
    ∀ fuel attempt, attempt + fuel = 5 → 0 < fuel →
      (fetch_go key cache calls attempt fuel).exitTag ≠ ExitTag.terminal := by
  intro fuel
  induction fuel with
  | zero => intro attempt _ h0; exact absurd h0 (lt_irrefl 0)
  | succ f ih =>
    intro attempt h5 _
    simp only [fetch_go]
    cases hc : calls attempt with
    | success r =>
      cases hsl : successLikelihood r with
      | some q => simp [hsl]
      | none => simp [hsl]
    | failure msg =>
      by_cases hrl : isRateLimitError msg
      · by_cases hlt : attempt < max_retries - 1
        · have hf : 0 < f := by
            have : max_retries - 1 = 4 := rfl
            rw [this] at hlt
            omega
          simp only [hrl, if_true, hlt]
          exact ih (attempt + 1) (by omega) hf
        · simp [hrl, hlt]
      · simp [hrl]

/-- C6: when the reasoning call fails with a rate-limit-classified
error on all five attempts, the lookup sleeps exactly four times, for
2, 4, 8 and 16 seconds in that order, then returns the degraded
rate-limit fallback (likelihood 65), stores it under the cache key, and
has issued exactly five calls. -/
theorem rate_limit_backoff_schedule (cache : List (String × SolutionValue))
    (country category : String) (calls : ℕ → CallOutcome)
    (hmiss : cache.lookup (mkCacheKey country category) = none)
    (hfail : ∀ i, i < 5 → ∃ m, calls i = CallOutcome.failure m ∧ isRateLimitError m = true) :
    (fetch_un_solution cache country category calls).sleeps = [2, 4, 8, 16] ∧
    (fetch_un_solution cache country category calls).value = rateLimitFallback ∧
    (fetch_un_solution cache country category calls).cacheOut.lookup
      (mkCacheKey country category) = some rateLimitFallback ∧
    (fetch_un_solution cache country category calls).callsMade = 5 ∧
    (fetch_un_solution cache country category calls).exitTag = ExitTag.rateLimitExhausted := by
  obtain ⟨m0, hm0, hr0⟩ := hfail 0 (by norm_num)
  obtain ⟨m1, hm1, hr1⟩ := hfail 1 (by norm_num)
  obtain ⟨m2, hm2, hr2⟩ := hfail 2 (by norm_num)
  obtain ⟨m3, hm3, hr3⟩ := hfail 3 (by norm_num)
  obtain ⟨m4, hm4, hr4⟩ := hfail 4 (by norm_num)
  set key := mkCacheKey country category with hkey
  have hres : fetch_un_solution cache country category calls =
      ⟨rateLimitFallback, [2, 4, 8, 16], (key, rateLimitFallback) :: cache, 5,
       .rateLimitExhausted⟩ := by
    simp only [fetch_un_solution, ← hkey, hmiss]
    simp only [fetch_go, hm0, hr0, hm1, hr1, hm2, hr2, hm3, hr3, hm4, hr4]
    norm_num [max_retries, retry_delay]
  rw [hres]
  refine ⟨rfl, rfl, ?_, rfl, rfl⟩
  simp

lemma fetch_go_nonRL (key : String) (cache : List (String × SolutionValue))
    (calls : ℕ → CallOutcome) {m : String} :
    ∀ fuel attempt, 0 < fuel → calls attempt = CallOutcome.failure m →
      isRateLimitError m = false →
      fetch_go key cache calls attempt fuel =
        ⟨genericFailureFallback, [], (key, genericFailureFallback) :: cache, 1,
         .nonRateLimit⟩ := by
  intro fuel attempt hf hc hr
  cases fuel with
  | zero => exact absurd hf (lt_irrefl 0)
  | succ f =>
    simp only [fetch_go, hc, hr]
    norm_num

lemma fetch_go_rl_skip (key : String) (cache : List (String × SolutionValue))
    (calls : ℕ → CallOutcome) :
    ∀ k attempt fuel, attempt + fuel = 5 → k < fuel →
      (∀ i, i < k → ∃ m, calls (attempt + i) = CallOutcome.failure m ∧
        isRateLimitError m = true) →
      fetch_go key cache calls attempt fuel =
        ⟨(fetch_go key cache calls (attempt + k) (fuel - k)).value,
         (List.range k).map (fun i => retry_delay * 2 ^ (attempt + i)) ++
           (fetch_go key cache calls (attempt + k) (fuel - k)).sleeps,
         (fetch_go key cache calls (attempt + k) (fuel - k)).cacheOut,
         (fetch_go key cache calls (attempt + k) (fuel - k)).callsMade + k,
         (fetch_go key cache calls (attempt + k) (fuel - k)).exitTag⟩ := by
  intro k
  induction k with
  | zero =>
    intro attempt fuel h5 hk hpre
    simp
  | succ j ih =>
    intro attempt fuel h5 hk hpre
    obtain ⟨m, hm, hr⟩ := hpre 0 (Nat.succ_pos j)
    rw [Nat.add_zero] at hm
    cases fuel with
    | zero => omega
    | succ f =>
      have hlt : attempt < max_retries - 1 := by
        have h4 : max_retries - 1 = 4 := rfl
        rw [h4]
        omega
      have hpre' : ∀ i, i < j → ∃ m, calls (attempt + 1 + i) = CallOutcome.failure m ∧
          isRateLimitError m = true := by
        intro i hi
        have := hpre (i + 1) (by omega)
        rwa [show attempt + (i + 1) = attempt + 1 + i by omega] at this
      simp only [fetch_go, hm, hr, if_true, hlt, if_pos]
      rw [ih (attempt + 1) f (by omega) (by omega) hpre']
      have he1 : attempt + 1 + j = attempt + (j + 1) := by omega
      have he2 : f - j = f + 1 - (j + 1) := by omega
      dsimp only
      rw [he1, he2]
      simp only [FetchResult.mk.injEq]
      refine ⟨trivial, ?_, trivial, by omega, trivial⟩
      rw [List.range_succ_eq_map, List.map_cons, List.map_map, Nat.add_zero,
        List.cons_append]
      congr 1
      congr 1
      apply List.map_congr_left
      intro a _
      simp only [Function.comp_apply]
      rw [show attempt + 1 + a = attempt + (a + 1) by omega]

/-- C7: the Cache+Retry lookup never propagates an exception: every
execution resolves to a value stored in the cache under its key
(first conjunct, over all inputs); and on the first failure that is not
rate-limit-classified — after k rate-limited failures — it immediately
returns the fixed degraded value with likelihood 60, stores it under
the cache key, performs no further attempts (exactly k + 1 calls), and
exits by the generic-failure return. -/
theorem non_rate_limit_immediate_fallback (cache : List (String × SolutionValue))
    (country category : String) (calls : ℕ → CallOutcome) (k : ℕ)
    (hmiss : cache.lookup (mkCacheKey country category) = none)
    (hk : k < 5)
    (hpre : ∀ i, i < k → ∃ m, calls i = CallOutcome.failure m ∧ isRateLimitError m = true)
    (hfk : ∃ m, calls k = CallOutcome.failure m ∧ isRateLimitError m = false) :
    (∀ (cache' : List (String × SolutionValue)) (country' category' : String)
        (calls' : ℕ → CallOutcome),
        (fetch_un_solution cache' country' category' calls').cacheOut.lookup
            (mkCacheKey country' category') =
          some (fetch_un_solution cache' country' category' calls').value) ∧
    (fetch_un_solution cache country category calls).value = genericFailureFallback ∧
    (fetch_un_solution cache country category calls).callsMade = k + 1 ∧
    (fetch_un_solution cache country category calls).cacheOut.lookup
      (mkCacheKey country category) = some genericFailureFallback ∧
    (fetch_un_solution cache country category calls).exitTag = ExitTag.nonRateLimit := by
  obtain ⟨m, hm, hr⟩ := hfk
  have hinner : fetch_go (mkCacheKey country category) cache calls (0 + k) (5 - k) =
      ⟨genericFailureFallback, [],
       (mkCacheKey country category, genericFailureFallback) :: cache, 1, .nonRateLimit⟩ := by
    apply fetch_go_nonRL
    · omega
    · rwa [Nat.zero_add]
    · exact hr
  have hfetch : fetch_un_solution cache country category calls =
      ⟨genericFailureFallback,
       (List.range k).map (fun i => retry_delay * 2 ^ (0 + i)) ++ [],
       (mkCacheKey country category, genericFailureFallback) :: cache, 1 + k,
       .nonRateLimit⟩ := by
    simp only [fetch_un_solution, hmiss]
    rw [show max_retries = 5 from rfl]
    rw [fetch_go_rl_skip (mkCacheKey country category) cache calls k 0 5 (by omega)
      (by omega) (by simpa using hpre)]
    rw [hinner]
  rw [hfetch]
  refine ⟨fun c' co' ca' cl' => fetch_caches c' co' ca' cl', rfl, by show 1 + k = k + 1; omega, ?_, rfl⟩
  simp

/-- C7: witness, instantiated at an immediately failing non-rate-limit
oracle (k = 0). -/
theorem non_rate_limit_immediate_fallback_witness :
    (fetch_un_solution [] "Yemen" "Health" (fun _ => .failure "boom")).value =
      genericFailureFallback ∧
    (fetch_un_solution [] "Yemen" "Health" (fun _ => .failure "boom")).callsMade = 0 + 1 := by
  have h := non_rate_limit_immediate_fallback [] "Yemen" "Health" (fun _ => .failure "boom") 0
    rfl (by omega) (fun i hi => absurd hi (by omega)) ⟨"boom", rfl, by decide⟩
  exact ⟨h.2.1, h.2.2.1⟩

/-- C6: witness, instantiated at an always-rate-limited oracle. -/
theorem rate_limit_backoff_schedule_witness :
    (fetch_un_solution [] "Yemen" "Health" (fun _ => .failure "429")).sleeps = [2, 4, 8, 16] ∧
    (fetch_un_solution [] "Yemen" "Health" (fun _ => .failure "429")).value =
      rateLimitFallback := by
  have h := rate_limit_backoff_schedule [] "Yemen" "Health" (fun _ => .failure "429")
    rfl (fun i _ => ⟨"429", rfl, by decide⟩)
  exact ⟨h.1, h.2.1⟩

/-- C10 (amended): the terminal fallback after the retry loop is
unreachable — every execution exits through the pre-loop cache hit or
one of the three in-loop returns (success, rate-limit-exhausted 65,
non-rate-limit 60), never through the post-loop branch. -/
theorem terminal_fallback_unreachable (cache : List (String × SolutionValue))
    (country category : String) (calls : ℕ → CallOutcome) :
    (fetch_un_solution cache country category calls).exitTag = ExitTag.cacheHit ∨
    (fetch_un_solution cache country category calls).exitTag = ExitTag.success ∨
    (fetch_un_solution cache country category calls).exitTag = ExitTag.rateLimitExhausted ∨
    (fetch_un_solution cache country category calls).exitTag = ExitTag.nonRateLimit := by
  have hne : (fetch_un_solution cache country category calls).exitTag ≠ ExitTag.terminal := by
    simp only [fetch_un_solution]
    cases hl : cache.lookup (mkCacheKey country category) with
    | some v => simp [hl]
    | none =>
      simp only [hl]
      exact fetch_go_no_terminal _ _ _ 5 0 (by norm_num) (by norm_num)
  cases h : (fetch_un_solution cache country category calls).exitTag <;> simp_all

/-- The successful payload reporting likelihood 55 that drives the C10
counterexample. -/
def lucky55 : GroqSolutionResult := { likelihood_of_success := some (.num 55) }

/-- C10: counterexample to the final clause of the claim. The terminal
fallback is indeed unreachable, but the function can still return a
likelihood of 55: an upstream call succeeding with
`likelihood_of_success = 55` is returned as-is through the in-loop
success exit. -/
theorem terminal_fallback_likelihood_cex :
    (fetch_un_solution [] "Yemen" "Health" (fun _ => .success lucky55)).value.likelihood = 55 ∧
    (fetch_un_solution [] "Yemen" "Health" (fun _ => .success lucky55)).exitTag =
      ExitTag.success := by
  have hsl : successLikelihood lucky55 = some 55 := by
    unfold successLikelihood lucky55
    have hj : jfalsy ((some (JVal.num 55)).getD (JVal.num 0)) = false := by decide
    simp only [hj, Bool.false_eq_true, if_false, Option.getD_some]
    rw [min_eq_right (by norm_num : (55:ℚ) ≤ 100), max_eq_right (by norm_num : (0:ℚ) ≤ 55)]
    simp [show jfalsy (JVal.num 55) = false from by decide]
  have hres : fetch_un_solution [] "Yemen" "Health" (fun _ => .success lucky55) =
      ⟨successValue lucky55 55, [],
       [(mkCacheKey "Yemen" "Health", successValue lucky55 55)], 1, .success⟩ := by
    simp only [fetch_un_solution, List.lookup_nil]
    show fetch_go _ _ _ 0 (4 + 1) = _
    simp only [fetch_go, hsl]
  rw [hres]
  exact ⟨rfl, rfl⟩

lemma selectImpactScore_bounds (qf : LLMResult) (b : ℚ) :
    0 ≤ selectImpactScore qf b ∧ selectImpactScore qf b ≤ 100 := by
  unfold selectImpactScore
  exact ⟨le_max_left _ _, max_le (by norm_num) (min_le_left _ _)⟩

/-- C8: when the pipeline produces a report, its final
`overall_impact_score` is the 2-decimal rounding of
`selectImpactScore`, which takes the stage-C `overall_impact_score`
float-coerced when present and numeric (directly or as a numeric
string) and otherwise falls back to the local package score, clamped to
the interval from 0 to 100 in either case; hence the reported score
lies in that interval. -/
theorem overall_impact_score_selection
    (df : List NeedsRow) (country : String) (year : ℤ) (category : Option String)
    (fg : Option ℚ) (pin : Option ℤ) (stab : Option ℚ)
    (first refined quantified : LLMResult) (rpt : Report)
    (h : generate_final_report df country year category fg pin stab first refined quantified
      = some rpt) :
    (∃ m0 base, get_underfunding_metrics df country year = some m0 ∧
      allocate_and_predict (applyOverrides m0 category fg pin stab) first = some base ∧
      rpt.overall_impact_score =
        round2 (selectImpactScore quantified base.package_success_score)) ∧
    (∀ (qf : LLMResult) (b q : ℚ), qf.overall_impact_score = some (.num q) →
      selectImpactScore qf b = max 0 (min 100 q)) ∧
    (∀ (qf : LLMResult) (b : ℚ) (s : String) (q : ℚ),
      qf.overall_impact_score = some (.str s) → pyParseFloat s = some q →
      selectImpactScore qf b = max 0 (min 100 q)) ∧
    (∀ (qf : LLMResult) (b : ℚ),
      (qf.overall_impact_score = none ∨ qf.overall_impact_score = some .null ∨
        (∃ s, qf.overall_impact_score = some (.str s) ∧ pyParseFloat s = none)) →
      selectImpactScore qf b = max 0 (min 100 b)) ∧
    0 ≤ rpt.overall_impact_score ∧ rpt.overall_impact_score ≤ 100 := by
  have hpipe : ∃ m0 base, get_underfunding_metrics df country year = some m0 ∧
      allocate_and_predict (applyOverrides m0 category fg pin stab) first = some base ∧
      rpt.overall_impact_score =
        round2 (selectImpactScore quantified base.package_success_score) := by
    unfold generate_final_report at h
    cases hg : get_underfunding_metrics df country year with
    | none => rw [hg] at h; simp at h
    | some m0 =>
      rw [hg] at h
      simp only [Option.some_bind] at h
      cases ha : allocate_and_predict (applyOverrides m0 category fg pin stab) first with
      | none => rw [ha] at h; simp at h
      | some base =>
        rw [ha] at h
        simp only [Option.map_some', Option.some.injEq] at h
        exact ⟨m0, base, rfl, ha, by rw [← h]⟩
  refine ⟨hpipe, ?_, ?_, ?_, ?_, ?_⟩
  · intro qf b q hq
    simp [selectImpactScore, hq, pyFloat]
  · intro qf b str q hq hps
    simp [selectImpactScore, hq, pyFloat, hps]
  · intro qf b hd
    rcases hd with hn | hnull | ⟨str, hq, hps⟩
    · simp [selectImpactScore, hn]
    · simp [selectImpactScore, hnull, pyFloat]
    · simp [selectImpactScore, hq, pyFloat, hps]
  · obtain ⟨m0, base, -, -, hs⟩ := hpipe
    rw [hs]
    exact round2_nonneg (selectImpactScore_bounds quantified base.package_success_score).1
  · obtain ⟨m0, base, -, -, hs⟩ := hpipe
    rw [hs]
    exact round2_le_hundred (selectImpactScore_bounds quantified base.package_success_score).2

/-- The stage-C response carrying the numeric string score "85". -/
def q85 : LLMResult := { overall_impact_score := some (.str "85") }

/-- The report produced for Yemen 2026 with an empty stage-A solution
list and the stage-C response `q85`. -/
def yemenReport : Report :=
  { summary := ""
    Reasoning := ""
    proposed_solutions := []
    overall_impact_score := round2 (selectImpactScore q85 0)
    country := yemenRow.Country
    year := 2026
    crisis_type := yemenRow.Crisis_Type
    funding_gap_usd := round2 (metricsOfRow 2026 yemenRow).Funding_Gap_USD
    underfunding_percentage := round2 (metricsOfRow 2026 yemenRow).Underfunding_Percentage
    people_in_need := yemenRow.People_in_Need
    stability_index := yemenRow.Stability_Index }

lemma generate_yemen_eval :
    generate_final_report NEEDS_DF "Yemen" 2026 none none none none {} {} q85 =
      some yemenReport := by
  unfold generate_final_report
  rw [metrics_yemen_eval]
  simp only [Option.some_bind]
  rw [show allocate_and_predict
      (applyOverrides (metricsOfRow 2026 yemenRow) none none none none) {} =
    some ⟨[], 0⟩ from rfl]
  simp only [Option.map_some']
  rfl

/-- C8: witness, the score bounds instantiated at the concrete Yemen
report with stage-C score "85". -/
theorem overall_impact_score_selection_witness :
    0 ≤ yemenReport.overall_impact_score ∧ yemenReport.overall_impact_score ≤ 100 := by
  have h := overall_impact_score_selection NEEDS_DF "Yemen" 2026 none none none none
    {} {} q85 yemenReport generate_yemen_eval
  exact ⟨h.2.2.2.2.1, h.2.2.2.2.2⟩
